import Mathlib

set_option maxRecDepth 100000

/-!
Verification development for the Diamonds-Compose CI helpers.

The repository has two JavaScript components:
* `workflow-utils.js` — helpers that locate an existing bot comment on a
  pull request and create or update it (`findBotComment`,
  `postOrUpdateComment`);
* the gas-report script — parses the textual output of a gas-snapshot diff
  (`parseGasDiff`) and renders a Markdown report (`formatGasValue`,
  `calculatePercentageChange`, `generateMarkdownTable`, `generateSummary`,
  `generateFooter`, `generateNoChangesReport`, `generateFullReport`).

This file gives a shallow embedding of those functions.  Strings are worked
on as `List Char`; JavaScript regular expressions are translated to explicit
matching functions whose comments record the backtracking analysis; the
ambient state read by the script (the clock used for the footer timestamp and
the GITHUB_REPOSITORY environment variable) is passed as explicit arguments;
the GitHub comment API is modelled as an explicit list of comments.
-/

/-- The JavaScript whitespace class `\s` (also the class used by
`String.prototype.trim`): ASCII whitespace, NBSP, the Unicode space
separators, the line separators and the BOM. -/
def isJsSpace (c : Char) : Bool :=
  c = ' ' || c = '\t' || c = '\n' || c = '\u000B' || c = '\u000C' || c = '\r' ||
  c = '\u00A0' || c = '\u1680' || (('\u2000' ≤ c) && (c ≤ '\u200A')) ||
  c = '\u2028' || c = '\u2029' || c = '\u202F' || c = '\u205F' || c = '\u3000' || c = '\uFEFF'

/-- JavaScript line terminators, which `.` never matches in a regex. -/
def isLineTerm (c : Char) : Bool :=
  c = '\n' || c = '\r' || c = '\u2028' || c = '\u2029'

/-- The digit class `\d`, exactly the ASCII digits 0-9. -/
def isDigitChar (c : Char) : Bool :=
  ('0' ≤ c) && (c ≤ '9')

/-- `String.prototype.trim` on a character list: strip leading and trailing
JavaScript whitespace. -/
def trimList (l : List Char) : List Char :=
  ((l.dropWhile isJsSpace).reverse.dropWhile isJsSpace).reverse

/-- `String.prototype.split('\n')` on a character list.  Like the JavaScript
original it keeps empty pieces: `splitLines "a\n\n".data = ["a".data, [], []]`
and splitting the empty string gives one empty piece. -/
def splitLines : List Char → List (List Char)
  | [] => [[]]
  | c :: cs =>
    if c = '\n' then [] :: splitLines cs
    else
      match splitLines cs with
      | [] => [[c]]
      | a :: as => (c :: a) :: as

/-- `parseInt` on a captured `\d+` group: the digits read as a decimal
number. -/
def digitsToNat (ds : List Char) : Nat :=
  ds.foldl (fun n c => 10 * n + (c.toNat - '0'.toNat)) 0

/-- Decimal digits of a natural number (the value of `n.toString()` in the
source), written with explicit fuel so that it is structurally recursive. -/
def natToCharsAux : Nat → Nat → List Char
  | 0, _ => []
  | fuel + 1, n =>
    if n < 10 then [Nat.digitChar n]
    else natToCharsAux fuel (n / 10) ++ [Nat.digitChar (n % 10)]

/-- Decimal digit string of a natural number. -/
def natToChars (n : Nat) : List Char :=
  natToCharsAux (n + 1) n

/-- Number-to-string conversion as used by `${n}` template interpolation for
a non-negative integer. -/
def natToStr (n : Nat) : String :=
  String.mk (natToChars n)

/-- Does `l` start with `pat`? (helper for substring search). -/
def listStartsWith : List Char → List Char → Bool
  | [], _ => true
  | _ :: _, [] => false
  | p :: ps, c :: cs => p == c && listStartsWith ps cs

/-- `String.prototype.includes`: does `pat` occur contiguously in `s`? -/
def containsSub (pat : List Char) : List Char → Bool
  | [] => pat.isEmpty
  | c :: cs => listStartsWith pat (c :: cs) || containsSub pat cs

/-! ## The gas-diff parser (`parseGasDiff`)

The source matches each line against

  `/^([+-])([^:]+):([^(]+)\(\).*?(\d+)\s*$/`

Backtracking analysis used for the translation:
* `^([+-])` — the first character must literally be `+` or `-` (the sign
  group has no quantifier, so a sign-less line can never match);
* `([^:]+):` — the class cannot cross a colon, so the group is exactly the
  (non-empty) run of characters up to the first colon, which the literal
  `:` then consumes;
* `([^(]+)\(\)` — likewise the group runs up to the first `(` after the
  colon (non-empty), and the two characters there must literally be `()`;
  no backtracking can rescue a line whose first parenthesis is not
  immediately closed;
* `.*?(\d+)\s*$` — `\s*$` forces the line to end in a run of whitespace
  preceded by at least one digit; the lazy `.*?` makes the digit group the
  whole maximal digit run ending where the trailing whitespace starts, and
  `.` cannot match a line terminator, so none may occur before that run.
-/

/-- The `.*?(\d+)\s*$` tail of the line pattern, applied to the characters
after `()`: strip trailing whitespace, require a trailing digit run, and
require no line terminator before it (the region matched by `.*?`).
Returns the digits' value (the `newGas` capture). -/
def tailNumber (l : List Char) : Option Nat :=
  let rev := l.reverse.dropWhile isJsSpace
  let run := rev.takeWhile isDigitChar
  let pre := rev.dropWhile isDigitChar
  if run.isEmpty then none
  else if pre.any isLineTerm then none
  else some (digitsToNat run.reverse)

/-- One attempt of `/(\d+)\s*->\s*(\d+)/` anchored at the current position:
a digit run, optional whitespace, the literal `->`, optional whitespace and
at least one digit.  Returns the first capture (the old gas value). -/
def arrowAt (l : List Char) : Option Nat :=
  let run := l.takeWhile isDigitChar
  if run.isEmpty then none
  else
    match (l.dropWhile isDigitChar).dropWhile isJsSpace with
    | '-' :: '>' :: r3 =>
      match r3.dropWhile isJsSpace with
      | c :: _ => if isDigitChar c then some (digitsToNat run) else none
      | [] => none
    | _ => none

/-- `line.match(/(\d+)\s*->\s*(\d+)/)`: the regex engine tries every start
position from the left, so the result is the leftmost occurrence. -/
def findArrow : List Char → Option Nat
  | [] => none
  | c :: cs =>
    match arrowAt (c :: cs) with
    | some n => some n
    | none => findArrow cs

/-- A parsed gas change record (the object pushed by `parseGasDiff`).
`oldGas` is `none` when the line carries no `<int> -> <int>` pair
(JavaScript `null`). -/
structure Change where
  type : String
  contract : String
  function : String
  oldGas : Option Nat
  newGas : Nat
  gasChange : Int
deriving DecidableEq, Repr

/-- The record built for a matching line.  In the source the captured old-gas
string is always non-empty, hence truthy, so `oldGas ? parseInt(oldGas) :
null` is just the parsed option, and `gasChange` is `newGas - oldGas` when
the pair was found and `newGas` otherwise. -/
def mkChange (sign : Char) (contract func : List Char) (newGas : Nat)
    (oldGas : Option Nat) : Change :=
  { type := if sign = '+' then "regression" else "improvement"
    contract := String.mk (trimList contract)
    function := String.mk (trimList func)
    oldGas := oldGas
    newGas := newGas
    gasChange :=
      match oldGas with
      | some o => (newGas : Int) - (o : Int)
      | none => (newGas : Int) }

/-- Matching of one line against the line pattern (see the analysis above).
Returns the change record when the line matches. -/
def parseLine (l : List Char) : Option Change :=
  match l with
  | [] => none
  | sign :: rest1 =>
    if sign = '+' || sign = '-' then
      let contract := rest1.takeWhile (· != ':')
      if contract.isEmpty then none
      else
        match rest1.dropWhile (· != ':') with
        | _ :: rest2 =>
          let func := rest2.takeWhile (· != '(')
          if func.isEmpty then none
          else
            match rest2.dropWhile (· != '(') with
            | _ :: ')' :: rest3 =>
              match tailNumber rest3 with
              | some newGas => some (mkChange sign contract func newGas (findArrow l))
              | none => none
            | _ => none
        | [] => none
    else none

/-- `parseGasDiff`: split into lines, drop blank/whitespace-only lines, and
collect the records of the matching lines in input order. -/
def parseGasDiff (diffOutput : String) : List Change :=
  ((splitLines diffOutput.data).filter (fun l => !(trimList l).isEmpty)).filterMap parseLine

/-! ## Formatting helpers -/

/-- Comma insertion realizing
`value.toString().replace(/\B(?=(\d{3})+(?!\d))/g, ',')` on a digit string:
a comma lands exactly at the inter-digit positions followed by a positive
multiple of three digits running to the end of the string. -/
def insertCommas : List Char → List Char
  | [] => []
  | c :: cs =>
    c :: (if cs.length % 3 = 0 && !cs.isEmpty then ',' :: insertCommas cs else insertCommas cs)

/-- `formatGasValue`: thousands separators.  For a negative integer
`toString` puts a `-` first; the regex never puts a comma right after it
because `\B` fails at the sign/digit boundary, so the sign is emitted and
the digits are grouped as for the absolute value. -/
def formatGasValue (value : Int) : String :=
  (if value < 0 then "-" else "") ++ String.mk (insertCommas (natToChars value.natAbs))

/-- Decimal rendering with two decimal places of the rational `num / den`
(`den > 0`), rounding as `toFixed(2)` does: the integer `n` with `n / 100`
closest to the value, the larger `n` on ties — that is,
`n = ⌊(100 * num + den / 2-ish) / den⌋ = ⌊(200 * num + den) / (2 * den)⌋`. -/
def toFixed2 (num : Int) (den : Int) : String :=
  let n : Int := Int.fdiv (200 * num + den) (2 * den)
  let a := n.natAbs
  (if n < 0 then "-" else "") ++ natToStr (a / 100) ++ "." ++
    (if a % 100 < 10 then "0" else "") ++ natToStr (a % 100)

/-- `calculatePercentageChange`: `'N/A'` when the old value is falsy (null or
zero), otherwise `((new-old)/old*100).toFixed(2) + '%'`.  The rational
`(new - old) * 100 / old` is evaluated exactly (the source computes it in
IEEE doubles; no claim in this development depends on the numeric content of
the percentage cell). -/
def calculatePercentageChange (oldVal : Option Nat) (newVal : Nat) : String :=
  match oldVal with
  | none => "N/A"
  | some 0 => "N/A"
  | some o => toFixed2 (((newVal : Int) - (o : Int)) * 100) (o : Int) ++ "%"

/-! ## The markdown table (`generateMarkdownTable`) -/

/-- JavaScript truthiness of the `oldGas` field (`number | null`): `null`
and the number `0` are falsy, every other number is truthy. -/
def optTruthy : Option Nat → Bool
  | some v => v != 0
  | none => false

/-- One data row of the table, exactly as concatenated in the source. -/
def renderRow (c : Change) : String :=
  let icon := if c.type == "improvement" then "🟢" else "🔴"
  let sign := if c.gasChange > 0 then "+" else ""
  let before := if optTruthy c.oldGas then formatGasValue ((c.oldGas.getD 0 : Nat) : Int) else "New"
  let after := formatGasValue ((c.newGas : Nat) : Int)
  let diff := icon ++ " " ++ sign ++ formatGasValue c.gasChange
  let percentage :=
    if optTruthy c.oldGas then " (" ++ calculatePercentageChange c.oldGas c.newGas ++ ")" else ""
  "| " ++ c.contract ++ " | " ++ c.function ++ "() | " ++ before ++ " | " ++ after ++ " | " ++
    diff ++ percentage ++ " |\n"

/-- Header of the markdown table. -/
def tableHeader : String :=
  "| Contract | Function | Before | After | Change |\n|----------|----------|--------|-------|--------|\n"

/-- Key the comparator `(a, b) => Math.abs(b.gasChange) - Math.abs(a.gasChange)`
sorts by. -/
def absKey (c : Change) : Nat :=
  c.gasChange.natAbs

/-- Insert `x` into a descending-by-`absKey` list, before the first element
whose key is `≤` the key of `x` (so after every strictly larger element). -/
def insertStable (x : Change) : List Change → List Change
  | [] => [x]
  | y :: ys => if absKey y ≤ absKey x then x :: y :: ys else y :: insertStable x ys

/-- `changes.sort((a, b) => Math.abs(b.gasChange) - Math.abs(a.gasChange))`.
Since ES2019 `Array.prototype.sort` is stable, and a stable sort with
respect to this (consistent) comparator is uniquely determined, so this
stable insertion sort computes the same list. -/
def sortChanges : List Change → List Change
  | [] => []
  | x :: xs => insertStable x (sortChanges xs)

/-- The `displayChanges` local of the source: the sorted list truncated by
`slice(0, limit)`. -/
def displayChanges (changes : List Change) (limit : Nat) : List Change :=
  (sortChanges changes).take limit

/-- `generateMarkdownTable`.  The `limit` parameter defaults to 20 at the
call sites. -/
def generateMarkdownTable (changes : List Change) (limit : Nat) : String :=
  if changes.length = 0 then
    "No gas changes detected in individual functions."
  else
    let table := tableHeader ++ String.join ((displayChanges changes limit).map renderRow)
    if changes.length > limit then
      table ++ "\n*Showing top " ++ natToStr limit ++ " changes out of " ++
        natToStr changes.length ++ " total.*"
    else
      table

/-! ## Summary statistics (`generateSummary`) -/

/-- The summary object returned by `generateSummary`. -/
structure Summary where
  improvements : Nat
  regressions : Nat
  totalImprovement : Nat
  totalRegression : Nat
  netChange : Int
  netIcon : String
  netText : String
deriving DecidableEq, Repr

/-- `generateSummary`: partition by type, sum the absolute gas deltas with
`reduce`, and pick the net icon/text by the sign of the net change. -/
def generateSummary (changes : List Change) : Summary :=
  let improvements := changes.filter (fun c => c.type == "improvement")
  let regressions := changes.filter (fun c => c.type == "regression")
  let totalImprovement : Nat := improvements.foldl (fun sum c => sum + c.gasChange.natAbs) 0
  let totalRegression : Nat := regressions.foldl (fun sum c => sum + c.gasChange.natAbs) 0
  let netChange : Int := (totalRegression : Int) - (totalImprovement : Int)
  let netIcon := if netChange > 0 then "🔴" else if netChange < 0 then "🟢" else "⚪"
  let netText :=
    if netChange > 0 then "+" ++ formatGasValue netChange ++ " gas"
    else if netChange < 0 then formatGasValue netChange ++ " gas"
    else "No change"
  { improvements := improvements.length
    regressions := regressions.length
    totalImprovement := totalImprovement
    totalRegression := totalRegression
    netChange := netChange
    netIcon := netIcon
    netText := netText }

/-! ## The full report (`generateFullReport`)

The script reads two pieces of ambient state: the clock
(`new Date().toUTCString()` in `generateFooter`) and the
`GITHUB_REPOSITORY` environment variable.  Both are surfaced as explicit
arguments `timestamp` and `repoEnv` of the embedded functions. -/

/-- The `prInfo` argument.  Absent fields of the JavaScript object are
`none`. -/
structure PrInfo where
  baseBranch : Option String
  headBranch : Option String
  commitSha : Option String
deriving DecidableEq, Repr

/-- JavaScript `x || d` for a possibly-absent string: the default replaces
both an absent and an empty (falsy) value. -/
def orElseStr (o : Option String) (d : String) : String :=
  match o with
  | some s => if s = "" then d else s
  | none => d

/-- `generateFooter` with the ambient clock and environment passed
explicitly. -/
def generateFooter (timestamp : String) (repoEnv : Option String)
    (shortSha fullCommitSha : String) : String :=
  let repo := orElseStr repoEnv "owner/repo"
  let commitLink := "[`" ++ (if shortSha = "" then "unknown" else shortSha) ++
    "`](https://github.com/" ++ repo ++ "/commit/" ++ fullCommitSha ++ ")"
  "*Last updated: " ++ timestamp ++ "* for commit " ++ commitLink

/-- `generateNoChangesReport`. -/
def generateNoChangesReport (baseBranch headBranch shortSha fullCommitSha : String)
    (timestamp : String) (repoEnv : Option String) : String :=
  "## 📊 Gas Report\n\nNo gas usage changes detected between `" ++ baseBranch ++
    "` and `" ++ headBranch ++
    "`.\n\nAll functions maintain the same gas costs. ✅\n\n" ++
    generateFooter timestamp repoEnv shortSha fullCommitSha

/-- `generateAboutSection`, a constant block. -/
def generateAboutSection : String :=
  "<details>\n<summary>ℹ️ About this report</summary>\n\nThis report compares gas usage between the base branch and this PR using `forge snapshot`.\n- 🟢 indicates a gas improvement (reduction)\n- 🔴 indicates a gas regression (increase)\n- Functions not shown have unchanged gas costs\n\nTo run this locally:\n```bash\n# Generate snapshot for current branch\nforge snapshot\n\n# Compare with another branch\ngit checkout main\nforge snapshot --diff .gas-snapshot\n```\n\n</details>"

/-- Effective base branch, `prInfo.baseBranch || 'base'`. -/
def effBaseBranch (p : PrInfo) : String :=
  orElseStr p.baseBranch "base"

/-- Effective head branch, `prInfo.headBranch || 'head'`. -/
def effHeadBranch (p : PrInfo) : String :=
  orElseStr p.headBranch "head"

/-- Effective full commit SHA, `prInfo.commitSha || ''`. -/
def effCommitSha (p : PrInfo) : String :=
  orElseStr p.commitSha ""

/-- Effective short SHA, `fullCommitSha ? fullCommitSha.substring(0, 7) : ''`. -/
def effShortSha (p : PrInfo) : String :=
  if effCommitSha p = "" then "" else String.mk ((effCommitSha p).data.take 7)

/-- `generateFullReport`, the report composer.  The two `trim`-empty and
no-parsed-changes cases fall back to the no-changes report; otherwise the
summary, the bounded table, the optional view-all block, the about section
and the footer are assembled exactly as in the source template. -/
def generateFullReport (diffOutput : String) (prInfo : PrInfo)
    (timestamp : String) (repoEnv : Option String) : String :=
  let baseBranch := effBaseBranch prInfo
  let headBranch := effHeadBranch prInfo
  let fullCommitSha := effCommitSha prInfo
  let shortSha := effShortSha prInfo
  if trimList diffOutput.data = [] then
    generateNoChangesReport baseBranch headBranch shortSha fullCommitSha timestamp repoEnv
  else
    let changes := parseGasDiff diffOutput
    if changes = [] then
      generateNoChangesReport baseBranch headBranch shortSha fullCommitSha timestamp repoEnv
    else
      let summary := generateSummary changes
      let table := generateMarkdownTable changes 20
      "## 📊 Gas Report\n\nComparing gas usage between `" ++ baseBranch ++ "` and `" ++
        headBranch ++ "`\n\n### Summary\n- **Optimized:** " ++ natToStr summary.improvements ++
        " functions (🟢 -" ++ formatGasValue (summary.totalImprovement : Int) ++
        " gas)\n- **Increased:** " ++ natToStr summary.regressions ++
        " functions (🔴 +" ++ formatGasValue (summary.totalRegression : Int) ++
        " gas)\n- **Net Change:** " ++ summary.netIcon ++ " " ++ summary.netText ++
        "\n\n### Details\n\n" ++ table ++ "\n\n" ++
        (if changes.length > 20 then
          "\n<details>\n<summary>View all " ++ natToStr changes.length ++
            " changes</summary>\n\n" ++ generateMarkdownTable changes changes.length ++
            "\n\n</details>\n"
        else "") ++
        "\n\n" ++ generateAboutSection ++ "\n\n" ++
        generateFooter timestamp repoEnv shortSha fullCommitSha

/-! ## The PR comment protocol (`workflow-utils.js`)

The GitHub API state touched by `postOrUpdateComment` is the list of
comments on the pull request; `issues.updateComment` replaces the body of
the comment with the given id, and `issues.createComment` appends a comment
authored by the `github-actions[bot]` account. -/

/-- A PR comment as inspected by `findBotComment`. -/
structure Comment where
  id : Nat
  userLogin : String
  userType : String
  body : String
deriving DecidableEq, Repr

/-- The bot test of `findBotComment`: type is `Bot`, or the login is (or
contains) `github-actions[bot]`. -/
def isBot (c : Comment) : Bool :=
  c.userType == "Bot" || c.userLogin == "github-actions[bot]" ||
    containsSub "[bot]".data c.userLogin.data

/-- The marker test of `findBotComment`: the body contains the
caller-supplied marker substring. -/
def hasMarker (marker : String) (c : Comment) : Bool :=
  containsSub marker.data c.body.data

/-- The predicate `comments.find` uses: bot-authored and marked. -/
def botMarkerPred (marker : String) (c : Comment) : Bool :=
  isBot c && hasMarker marker c

/-- `findBotComment`: the first comment that is bot-authored and contains
the marker. -/
def findBotComment (comments : List Comment) (marker : String) : Option Comment :=
  comments.find? (botMarkerPred marker)

/-- `postOrUpdateComment` as a transition on the comment list: update the
found comment's body in place, or append a fresh bot comment. -/
def postOrUpdateComment (comments : List Comment) (marker body : String)
    (newId : Nat) : List Comment :=
  match findBotComment comments marker with
  | some existing =>
    comments.map (fun c => if c.id = existing.id then { c with body := body } else c)
  | none =>
    comments ++ [{ id := newId, userLogin := "github-actions[bot]", userType := "Bot", body := body }]

/-! ## Specification-side definitions

These follow the words of the spec sentences being checked, to be compared
with the source-side definitions above. -/

/-- Chunks of three over a reversed digit string (helper for grouping from
the right). -/
def chunk3Rev : List Char → List (List Char)
  | [] => []
  | a :: b :: c :: rest => [a, b, c] :: chunk3Rev rest
  | l => [l]

/-- The digit string grouped in threes from the right: the first group holds
the leftover one or two leading digits, every later group holds exactly
three. -/
def chunksRight (l : List Char) : List (List Char) :=
  ((chunk3Rev l.reverse).map List.reverse).reverse

/-- Groups joined with comma separators. -/
def joinComma : List (List Char) → List Char
  | [] => []
  | [b] => b
  | b :: bs => b ++ ',' :: joinComma bs

/-! ## Helper lemmas -/

/-- `reduce((sum, c) => sum + Math.abs(c.gasChange), 0)` as a mapped sum. -/
theorem foldl_natAbs_eq_sum (l : List Change) (init : Nat) :
    l.foldl (fun sum c => sum + c.gasChange.natAbs) init
      = init + (l.map (fun c => c.gasChange.natAbs)).sum := by
  induction l generalizing init with
  | nil => simp
  | cons x xs ih => simp [List.foldl_cons, ih, Nat.add_assoc]

/-! ## Claims -/

/-- Claim C1.  The spec says parsing the line
`+Token:transfer() (gas: 1000 -> 1200)` yields one regression record with
oldGas 1000, newGas 1200 and gasChange 200, and the source's own comment
documents exactly this line shape — but the `\s*$` tail of the regex
demands that the line END with the gas integer, while the line ends with
`)`, so `parseGasDiff` produces no record at all (first conjunct).  Dropping
the final parenthesis (so the line does end with the integer) produces
exactly the record the claim describes (second conjunct), confirming that
everything but the end-of-line handling behaves as claimed. -/
theorem claim1_documented_line_rejected :
    parseGasDiff "+Token:transfer() (gas: 1000 -> 1200)" = []
    ∧ parseGasDiff "+Token:transfer() (gas: 1000 -> 1200" =
        [{ type := "regression", contract := "Token", function := "transfer",
           oldGas := some 1000, newGas := 1200, gasChange := 200 }] := by
  constructor
  · decide
  · decide

/-- Claim C2, counterexample.  The line `Token:transfer() 1200` has the
data-line shape (contract, colon, function, `()`, trailing integer) and no
leading sign; the claim says it parses as an improvement record, but the
regex requires the leading sign, so no record is produced. -/
theorem claim2_counterexample :
    parseGasDiff "Token:transfer() 1200" = [] := by
  decide

/-- Claim C2 as amended: a line that does not begin with `+` or `-` never
matches the line pattern at all — it is skipped and produces no record
(rather than being classified as an improvement). -/
theorem claim2_unsigned_line_skipped (l : List Char)
    (h₁ : l.head? ≠ some '+') (h₂ : l.head? ≠ some '-') :
    parseLine l = none := by
  cases l with
  | nil => rfl
  | cons c cs =>
    simp only [List.head?_cons, ne_eq, Option.some.injEq] at h₁ h₂
    simp [parseLine, h₁, h₂]

/-- Witness for the amended claim C2 at a concrete sign-less line. -/
theorem claim2_unsigned_line_skipped_witness :
    parseLine "Token:transfer() 1200".data = none :=
  claim2_unsigned_line_skipped "Token:transfer() 1200".data (by decide) (by decide)

/-- Claim C6.  `generateSummary` returns the sum of `|gasChange|` over the
improvement records, the sum over the regression records, their difference
as the net change, and the icon/text pair selected by the sign of the net
change. -/
theorem claim6_summary (changes : List Change) :
    (generateSummary changes).totalImprovement
        = ((changes.filter (fun c => c.type == "improvement")).map
            (fun c => c.gasChange.natAbs)).sum
    ∧ (generateSummary changes).totalRegression
        = ((changes.filter (fun c => c.type == "regression")).map
            (fun c => c.gasChange.natAbs)).sum
    ∧ (generateSummary changes).netChange
        = ((generateSummary changes).totalRegression : Int)
            - ((generateSummary changes).totalImprovement : Int)
    ∧ (0 < (generateSummary changes).netChange →
        (generateSummary changes).netIcon = "🔴"
        ∧ (generateSummary changes).netText
            = "+" ++ formatGasValue (generateSummary changes).netChange ++ " gas")
    ∧ ((generateSummary changes).netChange < 0 →
        (generateSummary changes).netIcon = "🟢"
        ∧ (generateSummary changes).netText
            = formatGasValue (generateSummary changes).netChange ++ " gas")
    ∧ ((generateSummary changes).netChange = 0 →
        (generateSummary changes).netIcon = "⚪"
        ∧ (generateSummary changes).netText = "No change") := by
  simp only [generateSummary, foldl_natAbs_eq_sum, Nat.zero_add]
  refine ⟨by trivial, by trivial, by trivial, ?_, ?_, ?_⟩
  · intro h
    simp only [if_pos h]
    exact ⟨by trivial, by trivial⟩
  · intro h
    have h' : ¬ ((0 : Int) <
        ((changes.filter (fun c => c.type == "regression")).map
            (fun c => c.gasChange.natAbs)).sum
          - ((changes.filter (fun c => c.type == "improvement")).map
            (fun c => c.gasChange.natAbs)).sum) := by omega
    simp only [if_neg h', if_pos h]
    exact ⟨by trivial, by trivial⟩
  · intro h
    have h₁ : ¬ ((0 : Int) <
        ((changes.filter (fun c => c.type == "regression")).map
            (fun c => c.gasChange.natAbs)).sum
          - ((changes.filter (fun c => c.type == "improvement")).map
            (fun c => c.gasChange.natAbs)).sum) := by omega
    have h₂ : ¬ (((changes.filter (fun c => c.type == "regression")).map
            (fun c => c.gasChange.natAbs)).sum
          - ((changes.filter (fun c => c.type == "improvement")).map
            (fun c => c.gasChange.natAbs)).sum < (0 : Int)) := by omega
    simp only [if_neg h₁, if_neg h₂]
    exact ⟨by trivial, by trivial⟩

/-- Demonstration list for the summary claim: one 300-gas regression and one
100-gas improvement, so the net change is +200. -/
def summaryDemo : List Change :=
  [{ type := "regression", contract := "A", function := "f",
     oldGas := some 100, newGas := 400, gasChange := 300 },
   { type := "improvement", contract := "B", function := "g",
     oldGas := some 500, newGas := 400, gasChange := -100 }]

/-- Witness for claim C6 at a concrete change list with a positive net
change. -/
theorem claim6_summary_witness :
    0 < (generateSummary summaryDemo).netChange
    ∧ (generateSummary summaryDemo).netIcon = "🔴" :=
  ⟨by decide, ((claim6_summary summaryDemo).2.2.2.1 (by decide)).1⟩

/-- Claim C8.  With the ambient reads (clock, repository environment
variable) surfaced as arguments, the report composer is a pure function:
calls with equal diff text, equal PR info, an equal repository identifier
and a frozen timestamp return identical strings. -/
theorem claim8_deterministic (d₁ d₂ : String) (p₁ p₂ : PrInfo)
    (t₁ t₂ : String) (e₁ e₂ : Option String)
    (hd : d₁ = d₂) (hp : p₁ = p₂) (ht : t₁ = t₂) (he : e₁ = e₂) :
    generateFullReport d₁ p₁ t₁ e₁ = generateFullReport d₂ p₂ t₂ e₂ := by
  subst hd; subst hp; subst ht; subst he; rfl

/-- A concrete `prInfo` used by witnesses. -/
def prDemo : PrInfo :=
  { baseBranch := some "main", headBranch := some "feature",
    commitSha := some "abc1234def5678" }

/-- Witness for claim C8 at concrete inputs. -/
theorem claim8_deterministic_witness :
    generateFullReport "+A:f() 5" prDemo "Sat, 11 Oct 2025 00:00:00 GMT" (some "acme/diamonds")
      = generateFullReport "+A:f() 5" prDemo "Sat, 11 Oct 2025 00:00:00 GMT" (some "acme/diamonds") :=
  claim8_deterministic _ _ _ _ _ _ _ _ rfl rfl rfl rfl

/-- Inserting into the stable sort permutes the element onto the list. -/
theorem insertStable_perm (x : Change) (l : List Change) :
    (insertStable x l).Perm (x :: l) := by
  induction l with
  | nil => exact List.Perm.refl _
  | cons y ys ih =>
    simp only [insertStable]
    split
    · exact List.Perm.refl _
    · exact (List.Perm.cons y ih).trans (List.Perm.swap x y ys)

/-- Inserting preserves the descending-by-`absKey` order. -/
theorem pairwise_insertStable (x : Change) (l : List Change)
    (hl : l.Pairwise (fun a b => absKey b ≤ absKey a)) :
    (insertStable x l).Pairwise (fun a b => absKey b ≤ absKey a) := by
  induction l with
  | nil => simp [insertStable]
  | cons y ys ih =>
    rcases List.pairwise_cons.mp hl with ⟨hy, hys⟩
    simp only [insertStable]
    split
    · rename_i hle
      refine List.pairwise_cons.mpr ⟨?_, hl⟩
      intro z hz
      rcases List.mem_cons.mp hz with rfl | hz'
      · exact hle
      · exact le_trans (hy z hz') hle
    · rename_i hgt
      refine List.pairwise_cons.mpr ⟨?_, ih hys⟩
      intro z hz
      have hz' := (insertStable_perm x ys).mem_iff.mp hz
      rcases List.mem_cons.mp hz' with rfl | hz''
      · omega
      · exact hy z hz''

/-- The sorted list is descending by `absKey`. -/
theorem sortChanges_pairwise (l : List Change) :
    (sortChanges l).Pairwise (fun a b => absKey b ≤ absKey a) := by
  induction l with
  | nil => simp [sortChanges]
  | cons x xs ih => exact pairwise_insertStable x _ ih

/-- The sorted list is a permutation of the input. -/
theorem sortChanges_perm (l : List Change) : (sortChanges l).Perm l := by
  induction l with
  | nil => exact List.Perm.refl _
  | cons x xs ih => exact (insertStable_perm x (sortChanges xs)).trans (ih.cons x)

/-- Stability at the level of one insertion: the elements of any fixed key
keep their relative order, because an element is only ever inserted before
elements of strictly smaller key. -/
theorem filter_insertStable (x : Change) (l : List Change) (k : Nat) :
    (insertStable x l).filter (fun c => absKey c == k)
      = if absKey x == k then x :: l.filter (fun c => absKey c == k)
        else l.filter (fun c => absKey c == k) := by
  induction l with
  | nil =>
    simp only [insertStable, List.filter_cons, List.filter_nil]
  | cons y ys ih =>
    simp only [insertStable]
    split
    · rename_i hle
      rw [List.filter_cons]
    · rename_i hgt
      rw [List.filter_cons, ih, List.filter_cons]
      by_cases hx : absKey x = k
      · by_cases hy : absKey y = k
        · exfalso
          omega
        · simp_all
      · by_cases hy : absKey y = k
        · simp_all
        · simp_all

/-- Stability of the sort: for every key value, filtering the sorted list
returns the same sequence as filtering the input. -/
theorem sortChanges_filter_key (l : List Change) (k : Nat) :
    (sortChanges l).filter (fun c => absKey c == k) = l.filter (fun c => absKey c == k) := by
  induction l with
  | nil => rfl
  | cons x xs ih =>
    simp only [sortChanges]
    rw [filter_insertStable, ih, List.filter_cons]

/-- Claim C4.  For a non-empty change list the rows of the rendered table —
the records of `displayChanges` — are in descending order of
`|gasChange|`; the sort is stable (records of equal `|gasChange|` keep
their original relative order, stated as equality of the key-filtered
sequences); and the sorted sequence is a permutation of the input. -/
theorem claim4_table_sorted (changes : List Change) (limit : Nat) (_hne : changes ≠ []) :
    (displayChanges changes limit).Pairwise (fun a b => absKey b ≤ absKey a)
    ∧ (∀ k, (sortChanges changes).filter (fun c => absKey c == k)
          = changes.filter (fun c => absKey c == k))
    ∧ (sortChanges changes).Perm changes := by
  refine ⟨?_, ?_, sortChanges_perm changes⟩
  · exact List.Pairwise.sublist (List.take_sublist _ _) (sortChanges_pairwise changes)
  · intro k
    exact sortChanges_filter_key changes k

/-- Demonstration records with `|gasChange|` equal to 50, 500 and 10. -/
def sortDemoA : Change :=
  { type := "regression", contract := "A", function := "a",
    oldGas := none, newGas := 50, gasChange := 50 }

/-- Second demonstration record (see `sortDemoA`). -/
def sortDemoB : Change :=
  { type := "improvement", contract := "B", function := "b",
    oldGas := none, newGas := 500, gasChange := -500 }

/-- Third demonstration record (see `sortDemoA`). -/
def sortDemoC : Change :=
  { type := "regression", contract := "C", function := "c",
    oldGas := none, newGas := 10, gasChange := 10 }

/-- Witness for claim C4: with `|gasChange|` being [50, 500, 10] the row
order is [500, 50, 10], and that order is descending. -/
theorem claim4_table_sorted_witness :
    displayChanges [sortDemoA, sortDemoB, sortDemoC] 20 = [sortDemoB, sortDemoA, sortDemoC]
    ∧ (displayChanges [sortDemoA, sortDemoB, sortDemoC] 20).Pairwise
        (fun a b => absKey b ≤ absKey a) :=
  ⟨by decide, (claim4_table_sorted [sortDemoA, sortDemoB, sortDemoC] 20 (by decide)).1⟩

/-- Claim C5.  For a non-empty list of `n` records and a limit `L`, the
table has exactly `min n L` data rows; when `n > L` the rendered string is
the header and rows followed by the "Showing top L changes out of n total."
note, and when `n ≤ L` it is the header and rows with no note. -/
theorem claim5_truncation (changes : List Change) (limit : Nat) (hne : changes ≠ []) :
    (displayChanges changes limit).length = min changes.length limit
    ∧ (limit < changes.length →
        generateMarkdownTable changes limit
          = tableHeader ++ String.join ((displayChanges changes limit).map renderRow)
            ++ "\n*Showing top " ++ natToStr limit ++ " changes out of "
            ++ natToStr changes.length ++ " total.*")
    ∧ (changes.length ≤ limit →
        generateMarkdownTable changes limit
          = tableHeader ++ String.join ((displayChanges changes limit).map renderRow)) := by
  have hlen : ¬ changes.length = 0 := fun hh => hne (List.length_eq_zero.mp hh)
  refine ⟨?_, ?_, ?_⟩
  · rw [displayChanges, List.length_take, (sortChanges_perm changes).length_eq]
    exact Nat.min_comm _ _
  · intro h
    simp only [generateMarkdownTable]
    rw [if_neg hlen, if_pos h]
  · intro h
    have h' : ¬ (limit < changes.length) := by omega
    simp only [generateMarkdownTable]
    rw [if_neg hlen, if_neg h']

/-- Twenty-five demonstration records with distinct gas deltas. -/
def tableDemo : List Change :=
  (List.range 25).map (fun i =>
    { type := "regression", contract := "C", function := "f",
      oldGas := none, newGas := i + 1, gasChange := (i : Int) + 1 })

/-- Witness for claim C5: 25 records render 20 rows plus the note under the
default limit 20, and 25 rows with no note under limit 25. -/
theorem claim5_truncation_witness :
    tableDemo.length = 25
    ∧ (displayChanges tableDemo 20).length = 20
    ∧ (displayChanges tableDemo 25).length = 25
    ∧ generateMarkdownTable tableDemo 20
        = tableHeader ++ String.join ((displayChanges tableDemo 20).map renderRow)
          ++ "\n*Showing top " ++ natToStr 20 ++ " changes out of "
          ++ natToStr tableDemo.length ++ " total.*"
    ∧ generateMarkdownTable tableDemo 25
        = tableHeader ++ String.join ((displayChanges tableDemo 25).map renderRow) := by
  refine ⟨by decide, by decide, by decide, ?_, ?_⟩
  · exact (claim5_truncation tableDemo 20 (by decide)).2.1 (by decide)
  · exact (claim5_truncation tableDemo 25 (by decide)).2.2 (by decide)

/-- Claim C7.  With the PR's comment list as explicit state:
`postOrUpdateComment` grows the list by one exactly when no comment is
bot-authored and marked (first conjunct, the create case); when such a
comment exists the length is unchanged (second conjunct, the update case);
the posted body is present afterwards in both cases (third conjunct); and
— under distinct comment ids and a posted body that contains the marker —
if at most one bot-authored marked comment existed before the call, at most
one exists after it (fourth conjunct). -/
theorem claim7_comment_protocol (comments : List Comment) (marker body : String)
    (newId : Nat) (hids : (comments.map Comment.id).Nodup)
    (hbody : containsSub marker.data body.data = true) :
    ((postOrUpdateComment comments marker body newId).length = comments.length + 1
      ↔ ∀ c ∈ comments, botMarkerPred marker c = false)
    ∧ ((∃ c ∈ comments, botMarkerPred marker c = true) →
        (postOrUpdateComment comments marker body newId).length = comments.length)
    ∧ (∃ c ∈ postOrUpdateComment comments marker body newId, c.body = body)
    ∧ (comments.countP (botMarkerPred marker) ≤ 1 →
        (postOrUpdateComment comments marker body newId).countP (botMarkerPred marker) ≤ 1) := by
  cases hfind : findBotComment comments marker with
  | none =>
    have hall : ∀ c ∈ comments, ¬ botMarkerPred marker c = true :=
      List.find?_eq_none.mp hfind
    simp only [postOrUpdateComment, hfind]
    refine ⟨?_, ?_, ?_, ?_⟩
    · constructor
      · intro _ c hc
        exact Bool.eq_false_iff.mpr (hall c hc)
      · intro _
        simp
    · rintro ⟨c, hc, hpred⟩
      exact absurd hpred (hall c hc)
    · refine ⟨_, List.mem_append_right comments (List.mem_singleton.mpr rfl), rfl⟩
    · intro _
      rw [List.countP_append]
      have h0 : comments.countP (botMarkerPred marker) = 0 :=
        List.countP_eq_zero.mpr hall
      have h1 : List.countP (botMarkerPred marker)
          [{ id := newId, userLogin := "github-actions[bot]",
             userType := "Bot", body := body }] ≤ 1 := by
        rw [List.countP_cons, List.countP_nil]
        split <;> simp
      omega
  | some ex =>
    have hex_mem : ex ∈ comments := List.mem_of_find?_eq_some hfind
    have hex_pred : botMarkerPred marker ex = true := List.find?_some hfind
    have hinj := List.inj_on_of_nodup_map hids
    have hkey : ∀ c ∈ comments,
        botMarkerPred marker (if c.id = ex.id then { c with body := body } else c)
          = botMarkerPred marker c := by
      intro c hc
      by_cases hcid : c.id = ex.id
      · have hceq : c = ex := hinj hc hex_mem hcid
        subst hceq
        rw [if_pos rfl, hex_pred]
        simp only [botMarkerPred, isBot, hasMarker, Bool.and_eq_true] at hex_pred ⊢
        exact ⟨hex_pred.1, hbody⟩
      · rw [if_neg hcid]
    simp only [postOrUpdateComment, hfind]
    refine ⟨?_, ?_, ?_, ?_⟩
    · rw [List.length_map]
      constructor
      · intro hlen
        omega
      · intro hall
        exact absurd hex_pred (by simp [hall ex hex_mem])
    · intro _
      exact List.length_map comments _
    · refine ⟨{ ex with body := body }, List.mem_map.mpr ⟨ex, hex_mem, by rw [if_pos rfl]⟩, rfl⟩
    · intro hle
      rw [List.countP_map]
      calc List.countP (botMarkerPred marker ∘ fun c =>
              if c.id = ex.id then { c with body := body } else c) comments
          = comments.countP (botMarkerPred marker) := by
            refine List.countP_congr ?_
            intro c hc
            have := hkey c hc
            simp only [Function.comp_apply]
            rw [this]
        _ ≤ 1 := hle

/-- A concrete comment list for the claim C7 witness: one human comment and
one marked bot comment. -/
def commentsDemo : List Comment :=
  [{ id := 1, userLogin := "alice", userType := "User", body := "looks good" },
   { id := 2, userLogin := "github-actions[bot]", userType := "Bot",
     body := "<!-- gas-report -->\nold report" }]

/-- Witness for claim C7 at a concrete comment list: the update case keeps
the comment count at two and the marked-bot-comment count at one. -/
theorem claim7_comment_protocol_witness :
    (postOrUpdateComment commentsDemo "<!-- gas-report -->" "<!-- gas-report -->\nnew report" 3).length
        = commentsDemo.length
    ∧ (postOrUpdateComment commentsDemo "<!-- gas-report -->" "<!-- gas-report -->\nnew report" 3).countP
        (botMarkerPred "<!-- gas-report -->") ≤ 1 := by
  have h := claim7_comment_protocol commentsDemo "<!-- gas-report -->"
    "<!-- gas-report -->\nnew report" 3 (by decide) (by decide)
  exact ⟨h.2.1 ⟨commentsDemo.get ⟨1, by decide⟩, by decide, by decide⟩, h.2.2.2 (by decide)⟩

/-- Claim C10.  For every line the pattern matches whose `<int> -> <int>`
pair has old value 0, the record stores `oldGas = some 0` (not absent) and
`gasChange = newGas`; yet because the number 0 is falsy in JavaScript, the
rendered row is identical to the row of the same record with `oldGas`
absent — the Before cell shows `New` and no percentage suffix appears. -/
theorem claim10_zero_baseline (l : List Char) (c : Change)
    (hparse : parseLine l = some c) (harrow : findArrow l = some 0) :
    c.oldGas = some 0 ∧ c.gasChange = (c.newGas : Int)
    ∧ renderRow c = renderRow { c with oldGas := none } := by
  cases l with
  | nil => exact absurd hparse (by simp [parseLine])
  | cons sign rest1 =>
    simp only [parseLine] at hparse
    repeat' split at hparse
    all_goals try exact Option.noConfusion hparse
    simp only [Option.some.injEq] at hparse
    subst hparse
    rw [harrow]
    refine ⟨rfl, ?_, ?_⟩
    · simp [mkChange]
    · simp [renderRow, mkChange, optTruthy]

/-- Witness for claim C10 at the concrete line
`+Token:transfer() gas 0 -> 1200` (which the pattern does match, since it
ends with the integer). -/
theorem claim10_zero_baseline_witness :
    ({ type := "regression", contract := "Token", function := "transfer",
       oldGas := some 0, newGas := 1200, gasChange := 1200 } : Change).oldGas = some 0
    ∧ ({ type := "regression", contract := "Token", function := "transfer",
         oldGas := some 0, newGas := 1200, gasChange := 1200 } : Change).gasChange
        = (({ type := "regression", contract := "Token", function := "transfer",
              oldGas := some 0, newGas := 1200, gasChange := 1200 } : Change).newGas : Int)
    ∧ renderRow { type := "regression", contract := "Token", function := "transfer",
                  oldGas := some 0, newGas := 1200, gasChange := 1200 }
        = renderRow { type := "regression", contract := "Token", function := "transfer",
                      oldGas := none, newGas := 1200, gasChange := 1200 } :=
  claim10_zero_baseline "+Token:transfer() gas 0 -> 1200".data
    { type := "regression", contract := "Token", function := "transfer",
      oldGas := some 0, newGas := 1200, gasChange := 1200 }
    (by decide) (by decide)

/-- A non-empty list yields a non-empty chunk list. -/
theorem chunk3Rev_ne_nil (r : List Char) (h : r ≠ []) : chunk3Rev r ≠ [] := by
  rcases r with _ | ⟨x, _ | ⟨y, _ | ⟨z, rest⟩⟩⟩
  · exact absurd rfl h
  · simp [chunk3Rev]
  · simp [chunk3Rev]
  · simp [chunk3Rev]

/-- Appending one element to a list whose length is a multiple of three
starts a fresh chunk. -/
theorem chunk3Rev_app_mod0 (a : Char) :
    ∀ (n : Nat) (r : List Char), r.length ≤ n → r.length % 3 = 0 →
      chunk3Rev (r ++ [a]) = chunk3Rev r ++ [[a]] := by
  intro n
  induction n with
  | zero =>
    intro r hle _
    have hr : r = [] := List.eq_nil_of_length_eq_zero (Nat.le_zero.mp hle)
    subst hr
    simp [chunk3Rev]
  | succ n ih =>
    intro r hle h
    rcases r with _ | ⟨x, _ | ⟨y, _ | ⟨z, rest⟩⟩⟩
    · simp [chunk3Rev]
    · simp at h
    · simp at h
    · have hr : rest.length % 3 = 0 := by
        simp [List.length_cons] at h
        omega
      have hlen : rest.length ≤ n := by
        simp [List.length_cons] at hle
        omega
      simp only [List.cons_append, chunk3Rev]
      exact congrArg (List.cons [x, y, z]) (ih rest hlen hr)

/-- Appending one element to a list whose length is not a multiple of three
extends the final (short) chunk. -/
theorem chunk3Rev_app_mod12 (a : Char) :
    ∀ (n : Nat) (r : List Char), r.length ≤ n → r.length % 3 ≠ 0 →
      ∃ A last, chunk3Rev r = A ++ [last]
        ∧ chunk3Rev (r ++ [a]) = A ++ [last ++ [a]] := by
  intro n
  induction n with
  | zero =>
    intro r hle h
    have hr : r = [] := List.eq_nil_of_length_eq_zero (Nat.le_zero.mp hle)
    subst hr
    simp at h
  | succ n ih =>
    intro r hle h
    rcases r with _ | ⟨x, _ | ⟨y, _ | ⟨z, rest⟩⟩⟩
    · simp at h
    · exact ⟨[], [x], by simp [chunk3Rev], by simp [chunk3Rev]⟩
    · exact ⟨[], [x, y], by simp [chunk3Rev], by simp [chunk3Rev]⟩
    · have hr : rest.length % 3 ≠ 0 := by
        simp [List.length_cons] at h
        omega
      have hlen : rest.length ≤ n := by
        simp [List.length_cons] at hle
        omega
      obtain ⟨A, last, h1, h2⟩ := ih rest hlen hr
      refine ⟨[x, y, z] :: A, last, ?_, ?_⟩
      · simp [chunk3Rev, h1]
      · simp [chunk3Rev, h2]

/-- Prepending a digit when the rest has length a multiple of three opens a
new leading group. -/
theorem chunksRight_cons_mod0 (c : Char) (cs : List Char)
    (_hne : cs ≠ []) (h : cs.length % 3 = 0) :
    chunksRight (c :: cs) = [c] :: chunksRight cs := by
  have h0 : cs.reverse.length % 3 = 0 := by simpa using h
  simp only [chunksRight, List.reverse_cons]
  rw [chunk3Rev_app_mod0 c cs.reverse.length cs.reverse (le_refl _) h0]
  simp

/-- Prepending a digit otherwise extends the leading group. -/
theorem chunksRight_cons_mod12 (c : Char) (cs : List Char)
    (h : cs.length % 3 ≠ 0) :
    ∃ hd t, chunksRight cs = hd :: t ∧ chunksRight (c :: cs) = (c :: hd) :: t := by
  have h0 : cs.reverse.length % 3 ≠ 0 := by simpa using h
  obtain ⟨A, last, h1, h2⟩ :=
    chunk3Rev_app_mod12 c cs.reverse.length cs.reverse (le_refl _) h0
  refine ⟨last.reverse, (A.map List.reverse).reverse, ?_, ?_⟩
  · simp [chunksRight, h1]
  · simp only [chunksRight, List.reverse_cons, h2]
    simp

/-- `joinComma` on a list with at least two groups. -/
theorem joinComma_cons (b : List Char) (bs : List (List Char)) (h : bs ≠ []) :
    joinComma (b :: bs) = b ++ ',' :: joinComma bs := by
  cases bs with
  | nil => exact absurd rfl h
  | cons b2 bs2 => rfl

/-- Grouping a non-empty string yields at least one group. -/
theorem chunksRight_ne_nil (l : List Char) (h : l ≠ []) : chunksRight l ≠ [] := by
  have hnn := chunk3Rev_ne_nil l.reverse (by simpa using h)
  simp only [chunksRight, ne_eq, List.reverse_eq_nil_iff, List.map_eq_nil_iff]
  exact hnn

/-- The comma-insertion of the source equals the from-the-right grouping of
the spec. -/
theorem insertCommas_eq_chunks :
    ∀ (n : Nat) (l : List Char), l.length ≤ n →
      insertCommas l = joinComma (chunksRight l) := by
  intro n
  induction n with
  | zero =>
    intro l hle
    have hl : l = [] := List.eq_nil_of_length_eq_zero (Nat.le_zero.mp hle)
    subst hl
    rfl
  | succ n ih =>
    intro l hle
    cases l with
    | nil => rfl
    | cons c cs =>
      have hcs : cs.length ≤ n := by
        simp [List.length_cons] at hle
        omega
      by_cases hne : cs = []
      · subst hne
        simp [insertCommas, chunksRight, chunk3Rev, joinComma]
      · by_cases hmod : cs.length % 3 = 0
        · have hcond : (cs.length % 3 = 0 && !cs.isEmpty) = true := by
            simp [hmod, List.isEmpty_eq_true, hne]
          rw [insertCommas, if_pos hcond, ih cs hcs,
            chunksRight_cons_mod0 c cs hne hmod,
            joinComma_cons [c] (chunksRight cs) (chunksRight_ne_nil cs hne)]
          rfl
        · have hcond : ¬ (cs.length % 3 = 0 && !cs.isEmpty) = true := by
            simp [hmod]
          obtain ⟨hd, t, h1, h2⟩ := chunksRight_cons_mod12 c cs hmod
          rw [insertCommas, if_neg hcond, ih cs hcs, h1, h2]
          cases t with
          | nil => rfl
          | cons t1 ts =>
            rw [joinComma_cons hd (t1 :: ts) (by simp),
              joinComma_cons (c :: hd) (t1 :: ts) (by simp)]
            rfl

/-- The decimal rendering of a natural number is never empty. -/
theorem natToChars_ne_nil (n : Nat) : natToChars n ≠ [] := by
  simp only [natToChars, natToCharsAux]
  split
  · simp
  · simp

/-- A string of fewer than four characters forms a single group, so joining
returns it unchanged (no separator). -/
theorem joinComma_short (l : List Char) (h : l.length < 4) :
    joinComma (chunksRight l) = l := by
  rcases l with _ | ⟨x, _ | ⟨y, _ | ⟨z, rest⟩⟩⟩
  · rfl
  · rfl
  · rfl
  · have : rest = [] := by
      simp [List.length_cons] at h
      exact List.eq_nil_of_length_eq_zero (by omega)
    subst this
    rfl

/-- Claim C9.  For every non-negative integer, `formatGasValue` renders the
decimal digits grouped in threes from the right with comma separators
(first conjunct, against the spec-side grouping functions `chunksRight` and
`joinComma`), and for numbers with fewer than four digits no separator is
inserted (second conjunct). -/
theorem claim9_thousands (n : Nat) :
    formatGasValue (n : Int) = String.mk (joinComma (chunksRight (natToChars n)))
    ∧ ((natToChars n).length < 4 → formatGasValue (n : Int) = String.mk (natToChars n)) := by
  have hmain : formatGasValue (n : Int) = String.mk (joinComma (chunksRight (natToChars n))) := by
    have hneg : ¬ ((n : Int) < 0) := by omega
    rw [formatGasValue, if_neg hneg,
      insertCommas_eq_chunks (natToChars (Int.natAbs n)).length _ (le_refl _)]
    simp [Int.natAbs_ofNat]
  refine ⟨hmain, fun hlen => ?_⟩
  rw [hmain, joinComma_short (natToChars n) hlen]

/-- Witness for claim C9: 999 keeps its three digits separator-free, and
1234567 renders as `1,234,567`. -/
theorem claim9_thousands_witness :
    (natToChars 999).length < 4
    ∧ formatGasValue ((999 : Nat) : Int) = String.mk (natToChars 999)
    ∧ String.mk (natToChars 999) = "999"
    ∧ formatGasValue ((1234567 : Nat) : Int) = "1,234,567" :=
  ⟨by decide, (claim9_thousands 999).2 (by decide), by decide, by decide⟩

/-- A list of whitespace characters trims to nothing. -/
theorem trimList_nil_of_all (l : List Char) (h : ∀ c ∈ l, isJsSpace c) :
    trimList l = [] := by
  have h1 : l.dropWhile isJsSpace = [] := List.dropWhile_eq_nil_iff.mpr h
  simp [trimList, h1]

/-- A list that trims to nothing is all whitespace. -/
theorem all_space_of_trimList_nil (l : List Char) (h : trimList l = []) :
    ∀ c ∈ l, isJsSpace c := by
  have h1 : (l.dropWhile isJsSpace).reverse.dropWhile isJsSpace = [] := by
    simpa [trimList] using h
  have h2 : ∀ c ∈ (l.dropWhile isJsSpace).reverse, isJsSpace c :=
    List.dropWhile_eq_nil_iff.mp h1
  have h3 : ∀ c ∈ l.dropWhile isJsSpace, isJsSpace c := by
    intro c hc
    exact h2 c (List.mem_reverse.mpr hc)
  intro c hc
  rw [← List.takeWhile_append_dropWhile isJsSpace l] at hc
  rcases List.mem_append.mp hc with h4 | h4
  · exact List.mem_takeWhile_imp h4
  · exact h3 c h4

/-- Splitting always yields at least one line. -/
theorem splitLines_ne_nil (l : List Char) : splitLines l ≠ [] := by
  induction l with
  | nil => simp [splitLines]
  | cons c cs ih =>
    simp only [splitLines]
    split
    · simp
    · split
      · simp
      · simp

/-- Characters of a line come from the split text. -/
theorem mem_of_mem_splitLines (l : List Char) :
    ∀ line ∈ splitLines l, ∀ c ∈ line, c ∈ l := by
  induction l with
  | nil =>
    intro line hline c hc
    simp [splitLines] at hline
    subst hline
    simp at hc
  | cons a as ih =>
    intro line hline c hc
    simp only [splitLines] at hline
    by_cases ha : a = '\n'
    · rw [if_pos ha] at hline
      rcases List.mem_cons.mp hline with rfl | h2
      · simp at hc
      · exact List.mem_cons_of_mem a (ih line h2 c hc)
    · rw [if_neg ha] at hline
      cases hs : splitLines as with
      | nil => exact absurd hs (splitLines_ne_nil as)
      | cons b bs =>
        rw [hs] at hline
        rcases List.mem_cons.mp hline with rfl | h2
        · rcases List.mem_cons.mp hc with rfl | h3
          · exact List.mem_cons_self c as
          · have hb : b ∈ splitLines as := by
              rw [hs]
              exact List.mem_cons_self b bs
            exact List.mem_cons_of_mem a (ih b hb c h3)
        · have hline2 : line ∈ splitLines as := by
            rw [hs]
            exact List.mem_cons_of_mem b h2
          exact List.mem_cons_of_mem a (ih line hline2 c hc)

/-- A whitespace-only diff text parses to no change records: every line is
blank and is discarded by the filter. -/
theorem parseGasDiff_of_trim_nil (diffOutput : String)
    (h : trimList diffOutput.data = []) : parseGasDiff diffOutput = [] := by
  have hall := all_space_of_trimList_nil diffOutput.data h
  have hfilter : (splitLines diffOutput.data).filter (fun l => !(trimList l).isEmpty) = [] := by
    refine List.filter_eq_nil_iff.mpr ?_
    intro line hline
    have : trimList line = [] := by
      refine trimList_nil_of_all line ?_
      intro c hc
      exact hall c (mem_of_mem_splitLines diffOutput.data line hline c hc)
    simp [this]
  rw [parseGasDiff, hfilter]
  rfl

/-- The full report and the no-changes report differ at character 17
(`C` of `Comparing` versus `N` of `No`), whatever follows the two fixed
prefixes. -/
theorem reportPrefix_clash (x y : List Char) :
    "## 📊 Gas Report\n\nComparing gas usage between `".data ++ x
      ≠ "## 📊 Gas Report\n\nNo gas usage changes detected between `".data ++ y := by
  intro hEq
  have h17 := congrArg (fun l => l[17]?) hEq
  simp only at h17
  rw [List.getElem?_append_left (by decide), List.getElem?_append_left (by decide)] at h17
  exact absurd h17 (by decide)

/-- The no-changes report contains both branch names verbatim. -/
theorem noChanges_contains (bb hb ss fs ts : String) (env : Option String) :
    (∃ s t, generateNoChangesReport bb hb ss fs ts env = s ++ bb ++ t)
    ∧ (∃ s t, generateNoChangesReport bb hb ss fs ts env = s ++ hb ++ t) := by
  constructor
  · refine ⟨"## 📊 Gas Report\n\nNo gas usage changes detected between `",
      "` and `" ++ hb ++ ("`.\n\nAll functions maintain the same gas costs. ✅\n\n" ++
        generateFooter ts env ss fs), ?_⟩
    simp [generateNoChangesReport, String.append_assoc]
  · refine ⟨"## 📊 Gas Report\n\nNo gas usage changes detected between `" ++ bb ++ "` and `",
      "`.\n\nAll functions maintain the same gas costs. ✅\n\n" ++
        generateFooter ts env ss fs, ?_⟩
    simp [generateNoChangesReport, String.append_assoc]

/-- Claim C3.  `generateFullReport` returns the no-changes report variant
(for the effective branch names, here fixed by the hypotheses to the given
non-empty names) exactly when `parseGasDiff` yields no records (first
conjunct); a whitespace-only diff text always parses to no records (second
conjunct); and in the no-changes case the report contains both branch names
verbatim (third conjunct).  Unrecognized non-empty input (`parseGasDiff`
empty despite text) lands in the same no-changes branch, not an error. -/
theorem claim3_no_changes_iff (diffOutput : String) (prInfo : PrInfo)
    (timestamp : String) (repoEnv : Option String) (b h : String)
    (hb : prInfo.baseBranch = some b) (hbne : b ≠ "")
    (hh : prInfo.headBranch = some h) (hhne : h ≠ "") :
    (generateFullReport diffOutput prInfo timestamp repoEnv
        = generateNoChangesReport b h (effShortSha prInfo) (effCommitSha prInfo)
            timestamp repoEnv
      ↔ parseGasDiff diffOutput = [])
    ∧ (trimList diffOutput.data = [] → parseGasDiff diffOutput = [])
    ∧ (parseGasDiff diffOutput = [] →
        (∃ s t, generateFullReport diffOutput prInfo timestamp repoEnv = s ++ b ++ t)
        ∧ (∃ s t, generateFullReport diffOutput prInfo timestamp repoEnv = s ++ h ++ t)) := by
  have heb : effBaseBranch prInfo = b := by
    simp [effBaseBranch, orElseStr, hb, hbne]
  have heh : effHeadBranch prInfo = h := by
    simp [effHeadBranch, orElseStr, hh, hhne]
  by_cases htrim : trimList diffOutput.data = []
  · have hparse : parseGasDiff diffOutput = [] := parseGasDiff_of_trim_nil diffOutput htrim
    have hrep : generateFullReport diffOutput prInfo timestamp repoEnv
        = generateNoChangesReport b h (effShortSha prInfo) (effCommitSha prInfo)
            timestamp repoEnv := by
      simp only [generateFullReport]
      rw [if_pos htrim, heb, heh]
    refine ⟨⟨fun _ => hparse, fun _ => hrep⟩, fun _ => hparse, fun _ => ?_⟩
    rw [hrep]
    exact noChanges_contains b h (effShortSha prInfo) (effCommitSha prInfo) timestamp repoEnv
  · by_cases hparse : parseGasDiff diffOutput = []
    · have hrep : generateFullReport diffOutput prInfo timestamp repoEnv
          = generateNoChangesReport b h (effShortSha prInfo) (effCommitSha prInfo)
              timestamp repoEnv := by
        simp only [generateFullReport]
        rw [if_neg htrim, if_pos hparse, heb, heh]
      refine ⟨⟨fun _ => hparse, fun _ => hrep⟩, fun ht => absurd ht htrim, fun _ => ?_⟩
      rw [hrep]
      exact noChanges_contains b h (effShortSha prInfo) (effCommitSha prInfo) timestamp repoEnv
    · have hne : generateFullReport diffOutput prInfo timestamp repoEnv
          ≠ generateNoChangesReport b h (effShortSha prInfo) (effCommitSha prInfo)
              timestamp repoEnv := by
        intro hEq
        have hd := congrArg String.data hEq
        simp only [generateFullReport] at hd
        rw [if_neg htrim, if_neg hparse] at hd
        simp only [generateNoChangesReport, String.data_append, List.append_assoc] at hd
        exact reportPrefix_clash _ _ hd
      exact ⟨⟨fun hEq => absurd hEq hne, fun hp => absurd hp hparse⟩,
        fun ht => absurd ht htrim, fun hp => absurd hp hparse⟩

/-- Witness for claim C3: the empty diff with concrete PR info produces the
no-changes report. -/
theorem claim3_no_changes_iff_witness :
    generateFullReport "" prDemo "Sat, 11 Oct 2025 00:00:00 GMT" (some "acme/diamonds")
      = generateNoChangesReport "main" "feature" (effShortSha prDemo) (effCommitSha prDemo)
          "Sat, 11 Oct 2025 00:00:00 GMT" (some "acme/diamonds") :=
  ((claim3_no_changes_iff "" prDemo "Sat, 11 Oct 2025 00:00:00 GMT" (some "acme/diamonds")
      "main" "feature" rfl (by decide) rfl (by decide)).1).mpr (by decide)
